import Mathlib

/-!
Verification development for the `datasets_turntaking` dialog-audio pipeline.

Times are modelled as rationals (`ℚ`), tensors as lists.  Functions present in
the repository sources (`DialogAudioDM._dataset`, `DialogAudioDM.collate_fn`,
`Swithchboard.generate`) are translated directly; components of the pipeline
whose implementation files are not part of the sources (the VAD extractor, the
window engine, the history/label builder, augmentation helpers) are modelled
from the specification text, as marked in their doc comments.
-/

/-- A forced-alignment word: text with start/end time on a speaker channel. -/
structure Word where
  text : String
  start : ℚ
  stop : ℚ
  channel : ℕ
deriving Repr, DecidableEq

/-- A voice-activity segment `[start, stop)` within one channel. -/
structure VadSegment where
  start : ℚ
  stop : ℚ
deriving Repr, DecidableEq

/-- An utterance of a dialog: a speaker-continuous span with its words. -/
structure Utterance where
  text : String
  start : ℚ
  stop : ℚ
  words : List Word
deriving Repr, DecidableEq

/-- A dialog: per channel, the ordered list of utterances. -/
abbrev Dialog := List (List Utterance)

/-- Insert a word into a list sorted by start time (insertion-sort step). -/
def insertWordByStart (w : Word) : List Word → List Word
  | [] => [w]
  | x :: xs => if w.start ≤ x.start then w :: x :: xs else x :: insertWordByStart w xs

/-- Sort words by start time (insertion sort). -/
def sortWordsByStart (ws : List Word) : List Word :=
  ws.foldr insertWordByStart []

/-- Modelled from the spec: one step of the VAD extractor (§4.2) of
`extract_vad_list_from_words` (file `switchboard/utils.py`, not among the
sources).  The accumulator holds the segments built so far in reverse order,
the head being the currently open segment.  A word whose start is within
`diff` of the open segment's end is merged into it; otherwise the open segment
is closed and a new one opened at the word's start. -/
def vad_add_word (diff : ℚ) (acc : List VadSegment) (w : Word) : List VadSegment :=
  match acc with
  | [] => [⟨w.start, w.stop⟩]
  | seg :: rest =>
      if w.start - seg.stop ≤ diff then ⟨seg.start, max seg.stop w.stop⟩ :: rest
      else ⟨w.start, w.stop⟩ :: seg :: rest

/-- Modelled from the spec: the per-channel VAD extractor (§4.2): sort the
channel's words by start time, then merge words into segments with
gap-bridging tolerance `diff`. -/
def extract_vad_channel (diff : ℚ) (ws : List Word) : List VadSegment :=
  ((sortWordsByStart ws).foldl (vad_add_word diff) []).reverse

/-- All words of a channel, in utterance order. -/
def channelWords (ch : List Utterance) : List Word :=
  (ch.map Utterance.words).flatten

/-- Modelled from the spec: `extract_vad_list_from_words` (file
`switchboard/utils.py`, not among the sources): per channel, extract the VAD
segment list from the channel's words with tolerance `diff`. -/
def extract_vad_list_from_words (dialog : Dialog) (diff : ℚ) : List (List VadSegment) :=
  dialog.map (fun ch => extract_vad_channel diff (channelWords ch))

/-- Modelled from the spec: `remove_words_from_dialog` (file
`switchboard/utils.py`, not among the sources): the Dialog Compactor (§2)
discards word-level granularity, retaining only the turn spans. -/
def remove_words_from_dialog (dialog : Dialog) : Dialog :=
  dialog.map (fun ch => ch.map (fun u => { u with words := [] }))

/-- All word records still present anywhere in a dialog. -/
def dialogWords (dialog : Dialog) : List Word :=
  (dialog.map channelWords).flatten

/-- Parameters of the window engine (§4.3). -/
structure WindowParams where
  audio_duration : ℚ
  audio_overlap : ℚ
  audio_include_ratio : ℚ
  audio_context_duration : ℚ
  ipu_min_time : ℚ
  ipu_pause_time : ℚ
deriving Repr, DecidableEq

/-- A session: the canonical unit consumed by the window engine (§3). -/
structure Session where
  id : String
  duration : ℚ
  vad_list : List (List VadSegment)
  dialog : Dialog
deriving Repr, DecidableEq

/-- The sliding-window step `audio_duration - audio_overlap` (§4.3). -/
def windowStep (p : WindowParams) : ℚ :=
  p.audio_duration - p.audio_overlap

/-- Number of candidate window offsets: offsets advance from 0 by the step
while they stay short of the session end. -/
def numCandidateOffsets (p : WindowParams) (s : Session) : ℕ :=
  (Int.ceil (s.duration / windowStep p)).toNat

/-- Modelled from the spec: sliding-window candidate offsets (§4.3): start at
0 and advance by `audio_duration - audio_overlap` until the session end. -/
def candidateOffsets (p : WindowParams) (s : Session) : List ℚ :=
  (List.range (numCandidateOffsets p s)).map (fun (i : ℕ) => (i : ℚ) * windowStep p)

/-- Clip a segment to the window `[a, b]`. -/
def clipSeg (a b : ℚ) (s : VadSegment) : VadSegment :=
  ⟨max s.start a, min s.stop b⟩

/-- Insert a segment into a list sorted by start time. -/
def insertSegByStart (s : VadSegment) : List VadSegment → List VadSegment
  | [] => [s]
  | x :: xs => if s.start ≤ x.start then s :: x :: xs else x :: insertSegByStart s xs

/-- Sort segments by start time (insertion sort). -/
def sortSegsByStart (l : List VadSegment) : List VadSegment :=
  l.foldr insertSegByStart []

/-- Length of the union of segments sorted by start, sweeping left to right:
`cur` is the time up to which the union has already been measured. -/
def sweepLen (cur : ℚ) : List VadSegment → ℚ
  | [] => 0
  | s :: rest => max 0 (s.stop - max s.start cur) + sweepLen (max cur s.stop) rest

/-- Modelled from the spec: the length covered within window `[a, b]` by the
union of all channels' VAD activity (§4.3). -/
def windowCoverage (vl : List (List VadSegment)) (a b : ℚ) : ℚ :=
  sweepLen a (sortSegsByStart (vl.flatten.map (clipSeg a b)))

/-- Modelled from the spec: kept sliding-window offsets (§4.3): a candidate is
kept when the window fits entirely before the session end (the last partial
window is dropped, not padded) and the union of VAD activity within it covers
at least `audio_include_ratio` of its duration. -/
def keptOffsets (p : WindowParams) (s : Session) : List ℚ :=
  (candidateOffsets p s).filter (fun off =>
    decide (off + p.audio_duration ≤ s.duration) &&
    decide (p.audio_include_ratio * p.audio_duration ≤
      windowCoverage s.vad_list off (off + p.audio_duration)))

/-- Modelled from the spec: the sliding-window mode window descriptors
`(offset, duration)` (§4.3). -/
def slidingWindows (p : WindowParams) (s : Session) : List (ℚ × ℚ) :=
  (keptOffsets p s).map (fun off => (off, p.audio_duration))

/-- An inter-pausal unit: a merged run of same-channel turns, with its total
active (within-turn) duration. -/
structure IPU where
  start : ℚ
  stop : ℚ
  active : ℚ
deriving Repr, DecidableEq

/-- Modelled from the spec: one step of IPU construction (§4.3): a turn whose
start is within `pause` of the open IPU's end joins it, otherwise a new IPU
opens.  The accumulator is in reverse order, head open. -/
def ipu_add_turn (pause : ℚ) (acc : List IPU) (u : Utterance) : List IPU :=
  match acc with
  | [] => [⟨u.start, u.stop, u.stop - u.start⟩]
  | i :: rest =>
      if u.start - i.stop < pause then
        ⟨i.start, max i.stop u.stop, i.active + (u.stop - u.start)⟩ :: rest
      else ⟨u.start, u.stop, u.stop - u.start⟩ :: i :: rest

/-- Modelled from the spec: the IPUs of one channel (§4.3): maximal runs of
same-channel turns separated by pauses shorter than `pause`; IPUs whose total
active duration is below `min_time` are discarded. -/
def ipusOfChannel (pause min_time : ℚ) (ch : List Utterance) : List IPU :=
  ((ch.foldl (ipu_add_turn pause) []).reverse).filter
    (fun i => decide (min_time ≤ i.active))

/-- Modelled from the spec: IPU-mode window descriptors (§4.3): each retained
IPU boundary anchors a context window of length `audio_context_duration`
ending at the boundary, clipped at 0 (shorter effective context, still
emitted). -/
def ipuWindows (p : WindowParams) (s : Session) : List (ℚ × ℚ) :=
  (s.dialog.map (fun ch =>
    (ipusOfChannel p.ipu_pause_time p.ipu_min_time ch).map (fun i =>
      (max 0 (i.stop - p.audio_context_duration),
       i.stop - max 0 (i.stop - p.audio_context_duration))))).flatten

/-- The two window-engine modes (§4.3). -/
inductive WindowMode where
  | sliding
  | ipu
deriving Repr, DecidableEq

/-- Modelled from the spec: window-descriptor generation for a session (§4.3).
The worker seed is available to the per-access pipeline (augmentation draws
from it, see `applyAugment`), but window generation makes no use of it:
randomness is confined to augmentation (§4.5). -/
def generateWindows (mode : WindowMode) (p : WindowParams) (s : Session)
    (seed : ℕ) : List (ℚ × ℚ) :=
  match mode with
  | .sliding => slidingWindows p s
  | .ipu => ipuWindows p s

/-- Whether any segment of the channel covers time `t`. -/
def vadActiveAt (segs : List VadSegment) (t : ℚ) : Bool :=
  segs.any (fun s => decide (s.start ≤ t) && decide (t < s.stop))

/-- Number of VAD frames spanning a duration at `vad_hz` frames per second. -/
def nFrames (dur : ℚ) (vad_hz : ℕ) : ℕ :=
  (round (dur * (vad_hz : ℚ))).toNat

/-- Modelled from the spec: the `vad` tensor of the History & Label Builder
(§4.4): `round(dur * vad_hz)` frames covering `[offset, offset + dur)`, each
frame sampling VadList membership per channel at the frame's absolute time. -/
def vadTensor (vl : List (List VadSegment)) (offset dur : ℚ) (vad_hz : ℕ) :
    List (List Bool) :=
  (List.range (nFrames dur vad_hz)).map (fun (i : ℕ) =>
    vl.map (fun ch => vadActiveAt ch (offset + (i : ℚ) / (vad_hz : ℚ))))

/-- Modelled from the spec: the `vad_label` tensor (§4.4): VAD sampled over
`[offset + dur, offset + dur + horizon)` at `vad_hz`. -/
def vadLabelTensor (vl : List (List VadSegment)) (offset dur horizon : ℚ)
    (vad_hz : ℕ) : List (List Bool) :=
  vadTensor vl (offset + dur) horizon vad_hz

/-- Modelled from the spec: the `vad_history` feature (§4.4): for each
lookback time, the fraction of frames within that lookback window in which
the designated channel (channel 0) is active, evaluated at `offset`. -/
def vadHistoryFeature (vl : List (List VadSegment)) (offset : ℚ)
    (times : List ℚ) (vad_hz : ℕ) : List ℚ :=
  times.map (fun t =>
    let n := nFrames t vad_hz
    if n = 0 then 0
    else (((List.range n).filter (fun (i : ℕ) =>
      vadActiveAt (vl.getD 0 []) (offset - t + (i : ℚ) / (vad_hz : ℚ)))).length : ℚ) / n)

/-- A materialized example with two speaker channels: each per-channel field
carries its channel-0 and channel-1 parts. -/
structure DExample where
  waveform : List ℚ × List ℚ
  vad : List (ℚ × ℚ)
  vad_history : List (ℚ × ℚ)
  vad_label : List (ℚ × ℚ)
deriving Repr, DecidableEq

/-- Modelled from the spec: channel flip (§4.5): swap the channel identity of
all per-channel tensors of one example simultaneously. -/
def flipExample (e : DExample) : DExample :=
  { waveform := (e.waveform.2, e.waveform.1)
    vad := e.vad.map Prod.swap
    vad_history := e.vad_history.map Prod.swap
    vad_label := e.vad_label.map Prod.swap }

/-- Modelled from the spec: the pseudo-random draw of the augmentation stage
(§4.5), as a pure function of the per-access seed. -/
def coinFlip (probability : ℚ) (seed : ℕ) : Bool :=
  decide (((seed % 100 : ℕ) : ℚ) / 100 < probability)

/-- Modelled from the spec: the augmentation stage (§4.5): when channel
flipping is enabled, flip the whole example with probability
`flip_probability`, drawing from the per-access seed. -/
def applyAugment (flip_channels : Bool) (flip_probability : ℚ) (seed : ℕ)
    (e : DExample) : DExample :=
  if flip_channels && coinFlip flip_probability seed then flipExample e else e

/-- The constructor arguments of `DialogAudioDM` that `_dataset` reads
(file `dialog_audio_dm.py`, lines 20-84). -/
structure DMConfig where
  type : String
  audio_mono : Bool
  audio_duration : ℚ
  audio_overlap : ℚ
  audio_normalize : Bool
  sample_rate : ℕ
  vad_hz : ℕ
  vad_horizon : ℚ
  vad_history : Bool
  vad_history_times : List ℚ
  flip_channels : Bool
  flip_probability : ℚ
  mask_vad : Bool
  mask_vad_probability : ℚ
deriving Repr, DecidableEq

/-- The arguments `_dataset` passes to the `DialogAudioDataset` constructor
(file `dialog_audio_dm.py`, lines 93-111). -/
structure DatasetConfig where
  type : String
  audio_mono : Bool
  audio_duration : ℚ
  audio_overlap : ℚ
  audio_normalize : Bool
  sample_rate : ℕ
  vad_hz : ℕ
  vad_horizon_time : ℚ
  vad_history : Bool
  vad_history_times : List ℚ
  flip_channels : Bool
  flip_probability : ℚ
  mask_vad : Bool
  mask_vad_probability : ℚ
deriving Repr, DecidableEq

/-- `DialogAudioDM._dataset` (file `dialog_audio_dm.py`, lines 86-111):
construct the per-split dataset; channel flipping is forced off unless the
split is `"train"`, everything else is passed through unchanged. -/
def DialogAudioDM.datasetForSplit (cfg : DMConfig) (split : String) : DatasetConfig :=
  let flip := if split = "train" then cfg.flip_channels else false
  { type := cfg.type
    audio_mono := cfg.audio_mono
    audio_duration := cfg.audio_duration
    audio_overlap := cfg.audio_overlap
    audio_normalize := cfg.audio_normalize
    sample_rate := cfg.sample_rate
    vad_hz := cfg.vad_hz
    vad_horizon_time := cfg.vad_horizon
    vad_history := cfg.vad_history
    vad_history_times := cfg.vad_history_times
    flip_channels := flip
    flip_probability := cfg.flip_probability
    mask_vad := cfg.mask_vad
    mask_vad_probability := cfg.mask_vad_probability }

/-- A per-example record handed to collation (file `dialog_audio_dm.py`,
lines 150-169): `waveform`, `dataset` and `session` are always present, the
VAD fields are optional. -/
structure BatchRecord where
  waveform : List ℚ
  dataset : String
  session : String
  vad : Option (List ℚ)
  vad_history : Option (List ℚ)
  vad_label : Option (List ℚ)
deriving Repr, DecidableEq

/-- A collated batch (file `dialog_audio_dm.py`, lines 171-185). -/
structure Batch where
  waveform : List ℚ
  dset_name : List String
  session : List String
  vad : Option (List ℚ)
  vad_history : Option (List ℚ)
  vad_label : Option (List ℚ)
deriving Repr, DecidableEq

/-- `DialogAudioDM.collate_fn` (file `dialog_audio_dm.py`, lines 150-185):
always concatenate waveforms and collect dataset names and session ids in
record order; for each optional field, collect it from exactly the records
that carry it and emit the concatenation whenever that collection is
non-empty, omitting the field otherwise. -/
def collate_fn (batch : List BatchRecord) : Batch :=
  let waveforms := batch.map BatchRecord.waveform
  let vad := batch.filterMap BatchRecord.vad
  let vad_history := batch.filterMap BatchRecord.vad_history
  let vad_label := batch.filterMap BatchRecord.vad_label
  let dset_names := batch.map BatchRecord.dataset
  let sessions := batch.map BatchRecord.session
  { waveform := waveforms.flatten
    dset_name := dset_names
    session := sessions
    vad := if vad.length > 0 then some vad.flatten else none
    vad_history := if vad_history.length > 0 then some vad_history.flatten else none
    vad_label := if vad_label.length > 0 then some vad_label.flatten else none }

/-- The `SwitchboardConfig` fields `Swithchboard.generate` reads
(file `switchboard.py`, lines 53-72). -/
structure SwbConfig where
  root : String
  ext : String
  min_word_vad_diff : ℚ
deriving Repr, DecidableEq

/-- A session record yielded by `Swithchboard.generate`
(file `switchboard.py`, lines 132-138). -/
structure SessionRecord where
  session : String
  dataset : String
  audio_path : String
  vad_list : List (List VadSegment)
  dialog : Dialog
deriving Repr, DecidableEq

/-- The record built for one session by the body of `Swithchboard.generate`
(file `switchboard.py`, lines 114-138): load the word-level transcript,
extract the VAD list from it, then drop the words from the dialog. -/
def mkSwbRecord (cfg : SwbConfig) (load : String → Dialog) (rel : String)
    (session : String) : SessionRecord :=
  { session := session
    dataset := "switchboard"
    audio_path := cfg.root ++ "/" ++ rel ++ cfg.ext
    vad_list := extract_vad_list_from_words (load session) cfg.min_word_vad_diff
    dialog := remove_words_from_dialog (load session) }

/-- `Swithchboard.generate` (file `switchboard.py`, lines 112-138): walk the
split's session list in order; a session id absent from the audio index
(`sess_2_rel_path`) raises a lookup error, which aborts the split's
construction; a present session yields exactly one record. -/
def generate (cfg : SwbConfig) (index : List (String × String))
    (load : String → Dialog) : List String → Except String (List SessionRecord)
  | [] => .ok []
  | session :: rest =>
      match index.lookup session with
      | none => .error session
      | some rel =>
          match generate cfg index load rest with
          | .error e => .error e
          | .ok recs => .ok (mkSwbRecord cfg load rel session :: recs)

/-- Concrete record with `vad_history` present (collation scenario). -/
def c1rec1 : BatchRecord := ⟨[1], "switchboard", "s1", none, some [10], none⟩

/-- Concrete record with `vad_history` present (collation scenario). -/
def c1rec2 : BatchRecord := ⟨[2], "switchboard", "s2", none, some [20], none⟩

/-- Concrete record without `vad_history` (collation scenario). -/
def c1rec3 : BatchRecord := ⟨[3], "switchboard", "s3", none, none, none⟩

/-- Concrete record with `vad` present (collation scenario). -/
def c6rec1 : BatchRecord := ⟨[5], "switchboard", "x1", some [1, 0], none, none⟩

/-- Concrete record without `vad` (collation scenario). -/
def c6rec2 : BatchRecord := ⟨[6], "switchboard", "x2", none, none, none⟩

/-- A concrete data-module configuration (default constructor values). -/
def c5cfg : DMConfig :=
  { type := "sliding"
    audio_mono := true
    audio_duration := 10
    audio_overlap := 2
    audio_normalize := true
    sample_rate := 16000
    vad_hz := 50
    vad_horizon := 2
    vad_history := false
    vad_history_times := [60, 30, 10, 5]
    flip_channels := true
    flip_probability := 1/2
    mask_vad := false
    mask_vad_probability := 1/2 }

/-- Window parameters of the spec's worked sliding-window scenario (§8). -/
def c2p : WindowParams :=
  { audio_duration := 5
    audio_overlap := 1
    audio_include_ratio := 2/5
    audio_context_duration := 8
    ipu_min_time := 1
    ipu_pause_time := 1/5 }

/-- Session of the spec's worked sliding-window scenario (§8): 20 seconds,
one channel active on `[2,6)` and `[10,11)`. -/
def c2s : Session :=
  { id := "demo"
    duration := 20
    vad_list := [[⟨2, 6⟩, ⟨10, 11⟩], []]
    dialog := [] }

/-- Concrete switchboard configuration for the generator scenarios. -/
def c7cfg : SwbConfig := ⟨"/data/switchboard/audio", ".wav", 1/10⟩

/-- Concrete transcript loader for the generator scenarios. -/
def c7load : String → Dialog :=
  fun _ => [[⟨"okay", 0, 1, [⟨"okay", 0, 1, 0⟩]⟩], []]

/-- Concrete audio index for the generator scenarios. -/
def c7index : List (String × String) := [("4325", "swb1_d1/sw04325")]

/-! ## Theorems -/

theorem collate_fn_vad_eq (batch : List BatchRecord) :
    (collate_fn batch).vad =
      if (batch.filterMap BatchRecord.vad).length > 0
      then some (batch.filterMap BatchRecord.vad).flatten else none := rfl

theorem collate_fn_vad_history_eq (batch : List BatchRecord) :
    (collate_fn batch).vad_history =
      if (batch.filterMap BatchRecord.vad_history).length > 0
      then some (batch.filterMap BatchRecord.vad_history).flatten else none := rfl

theorem collate_fn_vad_label_eq (batch : List BatchRecord) :
    (collate_fn batch).vad_label =
      if (batch.filterMap BatchRecord.vad_label).length > 0
      then some (batch.filterMap BatchRecord.vad_label).flatten else none := rfl

theorem filterMap_length_pos_iff (batch : List BatchRecord)
    (f : BatchRecord → Option (List ℚ)) :
    (batch.filterMap f).length > 0 ↔ ∃ r ∈ batch, (f r).isSome := by
  rw [gt_iff_lt, List.length_pos, Ne, List.filterMap_eq_nil_iff]
  push_neg
  simp [Option.isSome_iff_ne_none]

theorem collate_opt_isSome_iff (batch : List BatchRecord)
    (f : BatchRecord → Option (List ℚ)) :
    (if (batch.filterMap f).length > 0
      then some (batch.filterMap f).flatten else none).isSome ↔
      ∃ r ∈ batch, (f r).isSome := by
  by_cases h : (batch.filterMap f).length > 0
  · simp only [if_pos h, Option.isSome_some, true_iff]
    exact (filterMap_length_pos_iff batch f).mp h
  · rw [if_neg h]
    simp only [Option.isSome_none, Bool.false_eq_true, false_iff]
    intro hex
    exact h ((filterMap_length_pos_iff batch f).mpr hex)

theorem collate_opt_some_eq (batch : List BatchRecord)
    (f : BatchRecord → Option (List ℚ)) (l : List ℚ)
    (h : (if (batch.filterMap f).length > 0
      then some (batch.filterMap f).flatten else none) = some l) :
    l = (batch.filterMap f).flatten := by
  by_cases hc : (batch.filterMap f).length > 0
  · rw [if_pos hc] at h
    exact (Option.some.inj h).symm
  · rw [if_neg hc] at h
    exact absurd h (by simp)

/-- C1: the claim states that collating records with mismatched
optional-field presence raises `InconsistentBatch`; on the code this is
false.  `collate_fn` is total: collating 3 records of which 2 carry
`vad_history` and 1 does not returns a normal batch in which `vad_history`
is the concatenation of the two present values — exactly the silent partial
concatenation the claim excludes. -/
theorem claim_C1_counterexample :
    collate_fn [c1rec1, c1rec2, c1rec3] =
      { waveform := [1, 2, 3]
        dset_name := ["switchboard", "switchboard", "switchboard"]
        session := ["s1", "s2", "s3"]
        vad := none
        vad_history := some [10, 20]
        vad_label := none } := rfl

/-- C1 (amended): collation never aborts on mismatched optional-field
presence; when at least one record carries `vad_history` and another lacks
it, the batch still contains `vad_history`, as the concatenation of exactly
the records that carry it. -/
theorem claim_C1 (batch : List BatchRecord) (r r' : BatchRecord)
    (hr : r ∈ batch) (hr' : r' ∈ batch)
    (hsome : r.vad_history.isSome) (hnone : r'.vad_history = none) :
    (collate_fn batch).vad_history =
      some ((batch.filterMap BatchRecord.vad_history).flatten) := by
  rw [collate_fn_vad_history_eq, if_pos]
  exact (filterMap_length_pos_iff batch BatchRecord.vad_history).mpr ⟨r, hr, hsome⟩

/-- C1 witness: the amended statement at the concrete 3-record scenario. -/
theorem claim_C1_witness :
    (collate_fn [c1rec1, c1rec2, c1rec3]).vad_history =
      some (([c1rec1, c1rec2, c1rec3].filterMap BatchRecord.vad_history).flatten) :=
  claim_C1 [c1rec1, c1rec2, c1rec3] c1rec1 c1rec3 (by simp) (by simp) rfl rfl

/-- C6: the claim conditions an optional field's presence in the batch on
the records containing it (the spec says: only if every record does); on
the code this is false: collating one record that carries `vad` with one
that does not still puts `vad` in the batch. -/
theorem claim_C6_counterexample :
    (collate_fn [c6rec1, c6rec2]).vad = some [1, 0] ∧ c6rec2.vad = none :=
  ⟨rfl, rfl⟩

/-- C6 (amended): for every non-empty record list, collation concatenates
every record's waveform and collects dataset names and session ids in
record order, and an optional field appears in the batch exactly when at
least one record carries it, in which case it is the concatenation of the
values of the records that carry it. -/
theorem claim_C6 (batch : List BatchRecord) (hne : batch ≠ []) :
    (collate_fn batch).waveform = (batch.map BatchRecord.waveform).flatten ∧
    (collate_fn batch).dset_name = batch.map BatchRecord.dataset ∧
    (collate_fn batch).session = batch.map BatchRecord.session ∧
    ((collate_fn batch).vad.isSome ↔ ∃ r ∈ batch, r.vad.isSome) ∧
    ((collate_fn batch).vad_history.isSome ↔ ∃ r ∈ batch, r.vad_history.isSome) ∧
    ((collate_fn batch).vad_label.isSome ↔ ∃ r ∈ batch, r.vad_label.isSome) ∧
    (∀ l, (collate_fn batch).vad = some l →
      l = (batch.filterMap BatchRecord.vad).flatten) ∧
    (∀ l, (collate_fn batch).vad_history = some l →
      l = (batch.filterMap BatchRecord.vad_history).flatten) ∧
    (∀ l, (collate_fn batch).vad_label = some l →
      l = (batch.filterMap BatchRecord.vad_label).flatten) := by
  refine ⟨rfl, rfl, rfl, ?_, ?_, ?_, ?_, ?_, ?_⟩
  · rw [collate_fn_vad_eq]
    exact collate_opt_isSome_iff batch BatchRecord.vad
  · rw [collate_fn_vad_history_eq]
    exact collate_opt_isSome_iff batch BatchRecord.vad_history
  · rw [collate_fn_vad_label_eq]
    exact collate_opt_isSome_iff batch BatchRecord.vad_label
  · intro l hl
    rw [collate_fn_vad_eq] at hl
    exact collate_opt_some_eq batch BatchRecord.vad l hl
  · intro l hl
    rw [collate_fn_vad_history_eq] at hl
    exact collate_opt_some_eq batch BatchRecord.vad_history l hl
  · intro l hl
    rw [collate_fn_vad_label_eq] at hl
    exact collate_opt_some_eq batch BatchRecord.vad_label l hl

/-- C6 witness: the amended statement applied to a concrete 2-record
batch. -/
theorem claim_C6_witness :
    ([c6rec1, c6rec2] : List BatchRecord) ≠ [] ∧
    (collate_fn [c6rec1, c6rec2]).session = ["x1", "x2"] :=
  ⟨by simp, (claim_C6 [c6rec1, c6rec2] (by simp)).2.2.1⟩

/-- C10: the data module passes `mask_vad` and `mask_vad_probability`
unchanged to the dataset constructed for every split; unlike channel
flipping, VAD masking is not restricted to training. -/
theorem claim_C10 (cfg : DMConfig) (split : String) :
    (DialogAudioDM.datasetForSplit cfg split).mask_vad = cfg.mask_vad ∧
    (DialogAudioDM.datasetForSplit cfg split).mask_vad_probability =
      cfg.mask_vad_probability :=
  ⟨rfl, rfl⟩

/-- C4: window generation is deterministic in both modes: it is a pure
function of the session and the parameters, and in particular does not
depend on the per-access random seed that the augmentation stage draws
from, so two runs (in any workers) give identical, order-stable lists. -/
theorem claim_C4 (mode : WindowMode) (p : WindowParams) (s : Session)
    (seed₁ seed₂ : ℕ) :
    generateWindows mode p s seed₁ = generateWindows mode p s seed₂ := rfl

/-- C9: for every window, the `vad` tensor has `round(duration * vad_hz)`
frames, the `vad_history` feature has one entry per lookback time, and the
`vad_label` tensor has `round(vad_horizon * vad_hz)` frames. -/
theorem claim_C9 (vl : List (List VadSegment)) (offset dur horizon : ℚ)
    (times : List ℚ) (vad_hz : ℕ) :
    (vadTensor vl offset dur vad_hz).length = (round (dur * (vad_hz : ℚ))).toNat ∧
    (vadHistoryFeature vl offset times vad_hz).length = times.length ∧
    (vadLabelTensor vl offset dur horizon vad_hz).length =
      (round (horizon * (vad_hz : ℚ))).toNat := by
  refine ⟨?_, ?_, ?_⟩ <;>
    simp only [vadTensor, vadLabelTensor, vadHistoryFeature, nFrames,
      List.length_map, List.length_range]

/-- C5: channel flipping is disabled for every split other than `"train"`
regardless of the configured `flip_channels` (and passed through for the
train split), and a flip swaps the channel identity of all per-channel
fields of an example simultaneously — waveform channels, VAD planes,
VAD-history and VAD-label — never a subset, and is an involution. -/
theorem claim_C5 (cfg : DMConfig) (split : String) (h : split ≠ "train") :
    (DialogAudioDM.datasetForSplit cfg split).flip_channels = false ∧
    (DialogAudioDM.datasetForSplit cfg "train").flip_channels = cfg.flip_channels ∧
    (∀ e : DExample,
      (flipExample e).waveform = (e.waveform.2, e.waveform.1) ∧
      (flipExample e).vad = e.vad.map Prod.swap ∧
      (flipExample e).vad_history = e.vad_history.map Prod.swap ∧
      (flipExample e).vad_label = e.vad_label.map Prod.swap ∧
      flipExample (flipExample e) = e) := by
  refine ⟨?_, ?_, ?_⟩
  · simp [DialogAudioDM.datasetForSplit, h]
  · simp [DialogAudioDM.datasetForSplit]
  · intro e
    refine ⟨rfl, rfl, rfl, rfl, ?_⟩
    cases e
    simp [flipExample, List.map_map, Prod.swap_swap_eq]

/-- C5 witness: the statement at a concrete configuration and the `"val"`
split. -/
theorem claim_C5_witness :
    (DialogAudioDM.datasetForSplit c5cfg "val").flip_channels = false ∧
    (DialogAudioDM.datasetForSplit c5cfg "train").flip_channels = c5cfg.flip_channels ∧
    (∀ e : DExample,
      (flipExample e).waveform = (e.waveform.2, e.waveform.1) ∧
      (flipExample e).vad = e.vad.map Prod.swap ∧
      (flipExample e).vad_history = e.vad_history.map Prod.swap ∧
      (flipExample e).vad_label = e.vad_label.map Prod.swap ∧
      flipExample (flipExample e) = e) :=
  claim_C5 c5cfg "val" (by simp)

theorem dialogWords_remove_words (d : Dialog) :
    dialogWords (remove_words_from_dialog d) = [] := by
  simp [dialogWords, remove_words_from_dialog, channelWords, List.map_map,
    Function.comp, List.flatten_eq_nil_iff]

theorem generate_ok_iff (cfg : SwbConfig) (index : List (String × String))
    (load : String → Dialog) :
    ∀ (sessions : List String) (recs : List SessionRecord),
      generate cfg index load sessions = .ok recs ↔
        List.Forall₂ (fun ses r => ∃ rel, index.lookup ses = some rel ∧
          r = mkSwbRecord cfg load rel ses) sessions recs := by
  intro sessions
  induction sessions with
  | nil =>
    intro recs
    simp [generate, List.forall₂_nil_left_iff, eq_comm]
  | cons ses rest ih =>
    intro recs
    rw [List.forall₂_cons_left_iff]
    cases hl : index.lookup ses with
    | none => simp [generate, hl]
    | some rel =>
      cases hg : generate cfg index load rest with
      | error e =>
        simp only [generate, hl, hg]
        constructor
        · intro h
          exact absurd h (by simp)
        · rintro ⟨b, u', ⟨rel', hrel, hb⟩, hf, hrecs⟩
          have := (ih u').mpr hf
          rw [hg] at this
          exact absurd this (by simp)
      | ok recs' =>
        simp only [generate, hl, hg]
        constructor
        · intro h
          have hr : recs = mkSwbRecord cfg load rel ses :: recs' :=
            (Except.ok.inj h).symm
          exact ⟨mkSwbRecord cfg load rel ses, recs', ⟨rel, rfl, rfl⟩,
            (ih recs').mp hg, hr⟩
        · rintro ⟨b, u', ⟨rel', hrel, hb⟩, hf, hrecs⟩
          have hu : generate cfg index load rest = .ok u' := (ih u').mpr hf
          rw [hg] at hu
          have : recs' = u' := Except.ok.inj hu
          subst this
          have : rel' = rel := (Option.some.inj hrel).symm
          subst this
          subst hb
          subst hrecs
          rfl

theorem generate_missing_error (cfg : SwbConfig) (index : List (String × String))
    (load : String → Dialog) :
    ∀ sessions : List String, (∃ ses ∈ sessions, index.lookup ses = none) →
      ∃ e, generate cfg index load sessions = .error e
  | [] => by simp
  | ses :: rest => by
    rintro ⟨s, hs, hnone⟩
    rcases List.mem_cons.mp hs with rfl | hmem
    · exact ⟨s, by simp [generate, hnone]⟩
    · cases hl : index.lookup ses with
      | none => exact ⟨ses, by simp [generate, hl]⟩
      | some rel =>
        obtain ⟨e, he⟩ :=
          generate_missing_error cfg index load rest ⟨s, hmem, hnone⟩
        exact ⟨e, by simp [generate, hl, he]⟩

theorem forall₂_exists_left {α β : Type _} {R : α → β → Prop} :
    ∀ {l : List α} {u : List β}, List.Forall₂ R l u → ∀ b ∈ u, ∃ a ∈ l, R a b := by
  intro l u hf
  induction hf with
  | nil =>
    intro b hb
    cases hb
  | cons hab hrest ih =>
    intro b hb
    rcases List.mem_cons.mp hb with rfl | hmem
    · exact ⟨_, by simp, hab⟩
    · obtain ⟨a, ha, hr⟩ := ih b hmem
      exact ⟨a, by simp [ha], hr⟩

theorem generate_ok_mem (cfg : SwbConfig) (index : List (String × String))
    (load : String → Dialog) (sessions : List String)
    (recs : List SessionRecord)
    (h : generate cfg index load sessions = .ok recs)
    (r : SessionRecord) (hr : r ∈ recs) :
    ∃ rel ses, index.lookup ses = some rel ∧ r = mkSwbRecord cfg load rel ses := by
  have hf := (generate_ok_iff cfg index load sessions recs).mp h
  obtain ⟨ses, _, rel, hrel, hb⟩ := forall₂_exists_left hf r hr
  exact ⟨rel, ses, hrel, hb⟩

/-- C7: every session record yielded by the generator carries a `vad_list`
computed from the word-level dialog (the transcript as loaded), while its
`dialog` field has had the words removed after VAD extraction: the yielded
record retains no word-level data. -/
theorem claim_C7 (cfg : SwbConfig) (index : List (String × String))
    (load : String → Dialog) (sessions : List String)
    (recs : List SessionRecord)
    (h : generate cfg index load sessions = .ok recs)
    (r : SessionRecord) (hr : r ∈ recs) :
    r.vad_list =
      extract_vad_list_from_words (load r.session) cfg.min_word_vad_diff ∧
    dialogWords r.dialog = [] := by
  obtain ⟨rel, ses, hrel, rfl⟩ := generate_ok_mem cfg index load sessions recs h r hr
  exact ⟨rfl, dialogWords_remove_words _⟩

/-- C7 witness: the statement at a concrete one-session split. -/
theorem claim_C7_witness :
    (mkSwbRecord c7cfg c7load "swb1_d1/sw04325" "4325").vad_list =
      extract_vad_list_from_words
        (c7load (mkSwbRecord c7cfg c7load "swb1_d1/sw04325" "4325").session)
        c7cfg.min_word_vad_diff ∧
    dialogWords (mkSwbRecord c7cfg c7load "swb1_d1/sw04325" "4325").dialog = [] :=
  claim_C7 c7cfg c7index c7load ["4325"]
    [mkSwbRecord c7cfg c7load "swb1_d1/sw04325" "4325"] rfl
    (mkSwbRecord c7cfg c7load "swb1_d1/sw04325" "4325") (by simp)

/-- C8: generation succeeds exactly when it pairs each session of the split
list, in list order, with the one record built for it from the audio index,
and a session id absent from the audio index makes generation fail with an
error for that split rather than silently skipping the session. -/
theorem claim_C8 (cfg : SwbConfig) (index : List (String × String))
    (load : String → Dialog) (sessions : List String) :
    (∀ recs, generate cfg index load sessions = .ok recs ↔
      List.Forall₂ (fun ses r => ∃ rel, index.lookup ses = some rel ∧
        r = mkSwbRecord cfg load rel ses) sessions recs) ∧
    ((∃ ses ∈ sessions, index.lookup ses = none) →
      ∃ e, generate cfg index load sessions = .error e) :=
  ⟨fun recs => generate_ok_iff cfg index load sessions recs,
   generate_missing_error cfg index load sessions⟩

/-- C8 witness: a split list with a session id missing from the audio index
fails, and a fully indexed split list yields its records in order. -/
theorem claim_C8_witness :
    (∃ e, generate c7cfg c7index c7load ["4325", "9999"] = .error e) ∧
    List.Forall₂ (fun ses r => ∃ rel, c7index.lookup ses = some rel ∧
        r = mkSwbRecord c7cfg c7load rel ses) ["4325"]
      [mkSwbRecord c7cfg c7load "swb1_d1/sw04325" "4325"] :=
  ⟨(claim_C8 c7cfg c7index c7load ["4325", "9999"]).2 ⟨"9999", by simp, rfl⟩,
   ((claim_C8 c7cfg c7index c7load ["4325"]).1
      [mkSwbRecord c7cfg c7load "swb1_d1/sw04325" "4325"]).mp rfl⟩

theorem vad_add_word_inv (diff : ℚ) (acc : List VadSegment) (w : Word)
    (hw : w.start ≤ w.stop)
    (hok : ∀ s ∈ acc, s.start ≤ s.stop)
    (hch : List.Chain' (fun a b => b.stop + diff < a.start) acc) :
    (∀ s ∈ vad_add_word diff acc w, s.start ≤ s.stop) ∧
    List.Chain' (fun a b => b.stop + diff < a.start) (vad_add_word diff acc w) := by
  cases acc with
  | nil =>
    constructor
    · intro s hs
      simp only [vad_add_word, List.mem_singleton] at hs
      subst hs
      exact hw
    · simp [vad_add_word]
  | cons seg rest =>
    by_cases hm : w.start - seg.stop ≤ diff
    · simp only [vad_add_word, if_pos hm]
      constructor
      · intro s hs
        rcases List.mem_cons.mp hs with rfl | hs
        · exact le_trans (hok seg (by simp)) (le_max_left _ _)
        · exact hok s (List.mem_cons_of_mem seg hs)
      · cases rest with
        | nil => simp
        | cons r t =>
          rw [List.chain'_cons] at hch ⊢
          exact ⟨hch.1, hch.2⟩
    · simp only [vad_add_word, if_neg hm]
      push_neg at hm
      constructor
      · intro s hs
        rcases List.mem_cons.mp hs with rfl | hs
        · exact hw
        · exact hok s hs
      · rw [List.chain'_cons]
        refine ⟨?_, hch⟩
        show seg.stop + diff < w.start
        linarith

theorem foldl_vad_inv (diff : ℚ) :
    ∀ (ws : List Word) (acc : List VadSegment),
      (∀ w ∈ ws, w.start ≤ w.stop) →
      (∀ s ∈ acc, s.start ≤ s.stop) →
      List.Chain' (fun a b => b.stop + diff < a.start) acc →
      (∀ s ∈ ws.foldl (vad_add_word diff) acc, s.start ≤ s.stop) ∧
      List.Chain' (fun a b => b.stop + diff < a.start)
        (ws.foldl (vad_add_word diff) acc)
  | [], acc => fun _ hok hch => ⟨hok, hch⟩
  | w :: ws, acc => by
    intro hws hok hch
    have h1 := vad_add_word_inv diff acc w (hws w (by simp)) hok hch
    rw [List.foldl_cons]
    exact foldl_vad_inv diff ws (vad_add_word diff acc w)
      (fun x hx => hws x (List.mem_cons_of_mem w hx)) h1.1 h1.2

theorem insertWordByStart_mem (w x : Word) :
    ∀ l : List Word, x ∈ insertWordByStart w l ↔ x = w ∨ x ∈ l
  | [] => by simp [insertWordByStart]
  | y :: ys => by
    by_cases h : w.start ≤ y.start
    · simp [insertWordByStart, h]
    · simp only [insertWordByStart, if_neg h, List.mem_cons,
        insertWordByStart_mem w x ys]
      tauto

theorem sortWordsByStart_mem (x : Word) :
    ∀ ws : List Word, x ∈ sortWordsByStart ws ↔ x ∈ ws
  | [] => by simp [sortWordsByStart]
  | w :: ws => by
    have h : sortWordsByStart (w :: ws) = insertWordByStart w (sortWordsByStart ws) := rfl
    rw [h, insertWordByStart_mem, sortWordsByStart_mem x ws, List.mem_cons]

theorem chain'_start_lt (diff : ℚ) (hdiff : 0 ≤ diff) :
    ∀ l : List VadSegment, (∀ s ∈ l, s.start ≤ s.stop) →
      List.Chain' (fun a b => a.stop + diff < b.start) l →
      List.Chain' (fun a b => a.start < b.start) l
  | [] => by simp
  | [s] => by simp
  | a :: b :: t => by
    intro hok hch
    rw [List.chain'_cons] at hch ⊢
    refine ⟨?_, chain'_start_lt diff hdiff (b :: t)
      (fun s hs => hok s (List.mem_cons_of_mem a hs)) hch.2⟩
    have ha := hok a (by simp)
    linarith [hch.1]

/-- C3: for every word list and tolerance, the per-channel VAD extractor
yields well-formed segments that are sorted by start time, non-overlapping,
and separated by gaps strictly greater than `min_word_vad_diff`. -/
theorem claim_C3 (diff : ℚ) (ws : List Word) (hdiff : 0 ≤ diff)
    (hws : ∀ w ∈ ws, w.start ≤ w.stop) :
    (∀ s ∈ extract_vad_channel diff ws, s.start ≤ s.stop) ∧
    List.Chain' (fun a b => diff < b.start - a.stop) (extract_vad_channel diff ws) ∧
    List.Chain' (fun a b => a.stop < b.start) (extract_vad_channel diff ws) ∧
    List.Chain' (fun a b => a.start < b.start) (extract_vad_channel diff ws) := by
  have hsorted_ws : ∀ w ∈ sortWordsByStart ws, w.start ≤ w.stop :=
    fun w hw => hws w ((sortWordsByStart_mem w ws).mp hw)
  have hfold := foldl_vad_inv diff (sortWordsByStart ws) [] hsorted_ws
    (by simp) (by simp)
  have hok : ∀ s ∈ extract_vad_channel diff ws, s.start ≤ s.stop := by
    intro s hs
    rw [extract_vad_channel, List.mem_reverse] at hs
    exact hfold.1 s hs
  have hchain : List.Chain' (fun a b => a.stop + diff < b.start)
      (extract_vad_channel diff ws) := by
    rw [extract_vad_channel, List.chain'_reverse]
    exact hfold.2
  refine ⟨hok, ?_, ?_, ?_⟩
  · exact List.Chain'.imp (fun a b h => by linarith) hchain
  · exact List.Chain'.imp (fun a b h => by linarith) hchain
  · exact chain'_start_lt diff hdiff _ hok hchain

/-- C3 witness: the statement at a concrete two-word channel with tolerance
`0.1`. -/
theorem claim_C3_witness :
    List.Chain' (fun a b => a.stop < b.start)
      (extract_vad_channel (1/10) [⟨"a", 0, 1, 0⟩, ⟨"b", 2, 3, 0⟩]) :=
  (claim_C3 (1/10) [⟨"a", 0, 1, 0⟩, ⟨"b", 2, 3, 0⟩] (by norm_num)
    (by
      intro w hw
      rcases List.mem_cons.mp hw with rfl | hw
      · norm_num
      · rcases List.mem_cons.mp hw with rfl | hw
        · norm_num
        · cases hw)).2.2.1

/-- C2: in sliding-window mode, candidate offsets start at 0 and advance by
exactly `audio_duration - audio_overlap` while short of the session end, a
kept window always fits entirely before the session end (the last partial
window is dropped) and meets the VAD-inclusion threshold; in the worked
scenario (20 s session, one channel active on `[2,6)` and `[10,11)`,
duration 5, overlap 1, inclusion threshold 0.4) the candidate offsets are
`0, 4, 8, 12, 16`, window `[0,5)` is kept and window `[8,13)` is
discarded. -/
theorem claim_C2 :
    candidateOffsets c2p c2s = [0, 4, 8, 12, 16] ∧
    ((0 : ℚ), (5 : ℚ)) ∈ slidingWindows c2p c2s ∧
    ((8 : ℚ), (5 : ℚ)) ∉ slidingWindows c2p c2s ∧
    (∀ (p : WindowParams) (s : Session) (off : ℚ), off ∈ keptOffsets p s →
      off + p.audio_duration ≤ s.duration ∧
      p.audio_include_ratio * p.audio_duration ≤
        windowCoverage s.vad_list off (off + p.audio_duration)) ∧
    (∀ (p : WindowParams) (s : Session) (i : ℕ), i < numCandidateOffsets p s →
      (candidateOffsets p s).getD i 0 =
        (i : ℚ) * (p.audio_duration - p.audio_overlap)) ∧
    (∀ (p : WindowParams) (s : Session) (off : ℚ), 0 < windowStep p →
      off ∈ candidateOffsets p s → off < s.duration) := by
  have hstep : windowStep c2p = 4 := by norm_num [windowStep, c2p]
  have hnum : numCandidateOffsets c2p c2s = 5 := by
    rw [numCandidateOffsets, hstep]
    have h5 : (⌈c2s.duration / (4 : ℚ)⌉ : ℤ) = 5 := by norm_num [c2s]
    rw [h5]
    rfl
  have hcand : candidateOffsets c2p c2s = [0, 4, 8, 12, 16] := by
    simp only [candidateOffsets, hnum, hstep]
    simp [List.range_succ]
    norm_num
  have hcov0 : windowCoverage c2s.vad_list 0 (0 + 5) = 3 := by
    norm_num [windowCoverage, c2s, clipSeg, sortSegsByStart, insertSegByStart,
      sweepLen, max_def, min_def]
  have hcov8 : windowCoverage c2s.vad_list 8 (8 + 5) = 1 := by
    norm_num [windowCoverage, c2s, clipSeg, sortSegsByStart, insertSegByStart,
      sweepLen, max_def, min_def]
  refine ⟨hcand, ?_, ?_, ?_, ?_, ?_⟩
  · rw [slidingWindows, List.mem_map]
    refine ⟨0, ?_, ?_⟩
    · rw [keptOffsets, List.mem_filter]
      constructor
      · rw [hcand]
        norm_num
      · rw [Bool.and_eq_true, decide_eq_true_eq, decide_eq_true_eq]
        constructor
        · rw [show c2p.audio_duration = (5 : ℚ) from rfl,
            show c2s.duration = (20 : ℚ) from rfl]
          norm_num
        · rw [show c2p.audio_include_ratio = (2/5 : ℚ) from rfl,
            show c2p.audio_duration = (5 : ℚ) from rfl, hcov0]
          norm_num
    · rw [show c2p.audio_duration = (5 : ℚ) from rfl]
  · intro hmem
    rw [slidingWindows, List.mem_map] at hmem
    obtain ⟨off, hoff, heq⟩ := hmem
    have hoff8 : off = 8 := congrArg Prod.fst heq
    subst hoff8
    rw [keptOffsets, List.mem_filter] at hoff
    have hp := hoff.2
    rw [Bool.and_eq_true, decide_eq_true_eq, decide_eq_true_eq] at hp
    have h2 := hp.2
    rw [show c2p.audio_include_ratio = (2/5 : ℚ) from rfl,
      show c2p.audio_duration = (5 : ℚ) from rfl, hcov8] at h2
    norm_num at h2
  · intro p s off hoff
    rw [keptOffsets, List.mem_filter] at hoff
    have hp := hoff.2
    rw [Bool.and_eq_true, decide_eq_true_eq, decide_eq_true_eq] at hp
    exact hp
  · intro p s i hi
    simp [candidateOffsets, List.getD_eq_getElem?_getD, List.getElem?_map,
      List.getElem?_range, hi, windowStep]
  · intro p s off hpos hoff
    rw [candidateOffsets, List.mem_map] at hoff
    obtain ⟨i, hi, rfl⟩ := hoff
    rw [List.mem_range, numCandidateOffsets] at hi
    have h1 : (i : ℤ) < ⌈s.duration / windowStep p⌉ := by
      exact_mod_cast Int.lt_toNat.mp hi
    have h2 : (i : ℚ) < s.duration / windowStep p := by
      exact_mod_cast Int.lt_ceil.mp h1
    calc (i : ℚ) * windowStep p
        < (s.duration / windowStep p) * windowStep p :=
          mul_lt_mul_of_pos_right h2 hpos
      _ = s.duration := div_mul_cancel₀ _ (ne_of_gt hpos)

/-- C2 witness: the general conjuncts of `claim_C2` exercised at the worked
scenario: the third candidate offset is `2 * (5 - 1)`, offset 4 lies before
the session end, and the kept window at offset 0 fits before the session
end. -/
theorem claim_C2_witness :
    (candidateOffsets c2p c2s).getD 2 0 =
      (2 : ℚ) * (c2p.audio_duration - c2p.audio_overlap) ∧
    (4 : ℚ) < c2s.duration ∧
    (0 : ℚ) + c2p.audio_duration ≤ c2s.duration := by
  have hlen := congrArg List.length claim_C2.1
  rw [candidateOffsets, List.length_map, List.length_range] at hlen
  simp only [List.length_cons, List.length_nil] at hlen
  refine ⟨claim_C2.2.2.2.2.1 c2p c2s 2 (by rw [hlen]; norm_num),
    claim_C2.2.2.2.2.2 c2p c2s 4 (by norm_num [windowStep, c2p])
      (by rw [claim_C2.1]; norm_num), ?_⟩
  have hb := claim_C2.2.1
  rw [slidingWindows, List.mem_map] at hb
  obtain ⟨off, hoff, heq⟩ := hb
  have hoff0 : off = 0 := congrArg Prod.fst heq
  subst hoff0
  exact (claim_C2.2.2.2.1 c2p c2s 0 hoff).1
